import Mathlib

/-!
Verification of the multi-threaded downloader core (`src/mtdown.c`)
against its natural-language specification.

The C program is shallowly embedded below:
* the chunk planner inlined in `setup_download` (mtdown.c lines 349, 436-441)
  becomes `chunk_size` and `plan`;
* the concurrency probe `find_max_threads` (lines 200-235) becomes
  `find_max_threads`, parametrised by the HTTP response code each request
  receives (`resp i j` is the code of request `j` at concurrency level `i`);
* the per-segment retry loop of `download_worker` (lines 296-317) becomes
  `download_worker`, parametrised by which attempts succeed;
* the effectful prologue of `setup_download` (content-length check, overwrite
  prompt, file creation, thread spawning; lines 332-456) becomes
  `setup_download`, returning the ordered list of observable effects;
* the abort block of `wait_for_threads` (lines 615-622) becomes
  `wait_abort_triggered` / `cancelled_threads`;
* the unconditional completion banner of `main` (lines 675-678) becomes
  `run_job`.

`curl_off_t` is a signed 64-bit integer; sizes and offsets are embedded as
`Int` (no value in the claims approaches 2^63, so wrap-around is irrelevant),
and C's `/` on signed integers is truncating division, `Int.tdiv`.
-/

/-- A planned byte range: embedding of `DLThreadArgs` (mtdown.c lines 35-40).
The C field `end` is a Lean keyword, so it is named `endB` here. -/
structure Segment where
  index : Nat
  start : Int
  endB : Int
deriving Repr, DecidableEq

/-- `chunk_size = res / settings.max_threads` (mtdown.c line 349):
truncating signed division of the content length by the thread count. -/
def chunk_size (res : Int) (maxThreads : Nat) : Int :=
  res.tdiv (maxThreads : Int)

/-- The plan built by the loop of `setup_download` (mtdown.c lines 436-441):
segment `i` has `start = i * chunk_size`, `end = (i+1) * chunk_size - 1`,
and the last segment's `end` is overwritten with the content length `res`. -/
def plan (res : Int) (n : Nat) : List Segment :=
  (List.range n).map (fun i =>
    { index := i
      start := (i : Int) * chunk_size res n
      endB := if i = n - 1 then res else ((i : Int) + 1) * chunk_size res n - 1 })

/-- A point `x` lies inside segment `s` (both bounds inclusive, as in the
`Range: start-end` header built at mtdown.c lines 277-279). -/
def coversPt (s : Segment) (x : Int) : Prop :=
  s.start ≤ x ∧ x ≤ s.endB

instance (s : Segment) (x : Int) : Decidable (coversPt s x) := by
  unfold coversPt; infer_instance

/-- `x` is covered by some segment of the plan for `(res, n)`. -/
def covered (res : Int) (n : Nat) (x : Int) : Prop :=
  ∃ s ∈ plan res n, coversPt s x

instance (res : Int) (n : Nat) (x : Int) : Decidable (covered res n x) := by
  unfold covered; infer_instance

/-- One level of the probe succeeds when all `i` concurrent requests come back
with HTTP 200 (mtdown.c lines 219-226). -/
def level_ok (resp : Nat → Nat → Nat) (i : Nat) : Bool :=
  (List.range i).all (fun j => resp i j == 200)

/-- The probe loop of `find_max_threads` (mtdown.c lines 210-232), with the
remaining number of levels as explicit fuel.  `i` is the current level and
`best` the last fully successful level (`max_threads` in the C code,
initialised to 1).  On the first level with any non-200 response the loop
returns `i - 1`; if every level passes it returns the last recorded `best`. -/
def probe_from (resp : Nat → Nat → Nat) : Nat → Nat → Nat → Nat
  | 0, _, best => best
  | fuel + 1, i, _best =>
    if level_ok resp i then probe_from resp fuel (i + 1) i
    else i - 1

/-- `find_max_threads` (mtdown.c lines 200-235): run the probe for levels
`1 .. maxT`, starting from `max_threads = 1`. -/
def find_max_threads (maxT : Nat) (resp : Nat → Nat → Nat) : Nat :=
  probe_from resp maxT 1 1

/-- `main` stores the probe result directly into `settings.max_threads`
(mtdown.c line 657); this value is the divisor used by the planner. -/
def main_set_max_threads (userMax : Nat) (resp : Nat → Nat → Nat) : Nat :=
  find_max_threads userMax resp

/-- The structured log entries the program appends to the shared
`log_buffer`.  `started` is written at spawn time (mtdown.c lines 447-450),
`retrying`/`exiting` by a worker's failed attempts (lines 303-311), and
`userQuit` by `quit_handler` (lines 529-535); the rendered text of both
`exiting` and `userQuit` contains the substring `"exiting..."`. -/
inductive LogEntry where
  | started (idx : Nat)
  | retrying (idx : Nat)
  | exiting (idx : Nat)
  | userQuit
deriving Repr, DecidableEq

/-- Result of one worker's retry loop: attempts performed, log entries
appended, number of `fseek`-to-`start` cursor resets, and whether an attempt
succeeded. -/
structure WorkerRun where
  attempts : Nat
  logs : List LogEntry
  resets : Nat
  success : Bool
deriving Repr, DecidableEq

/-- The retry loop of `download_worker` (mtdown.c lines 296-317), with the
remaining attempt budget as fuel and `i` the current 0-based attempt index.
`ok i` tells whether `curl_easy_perform` returns `CURLE_OK` on attempt `i`.
A failed attempt logs `exiting` when `i == 4` (the 5th attempt) and
`retrying` otherwise, then resets the write cursor to the segment start and
retries; a successful attempt breaks out of the loop. -/
def worker_go (idx : Nat) (ok : Nat → Bool) : Nat → Nat → WorkerRun
  | 0, _ => ⟨0, [], 0, false⟩
  | fuel + 1, i =>
    if ok i then ⟨1, [], 0, true⟩
    else
      let entry := if i = 4 then LogEntry.exiting idx else LogEntry.retrying idx
      let r := worker_go idx ok fuel (i + 1)
      ⟨r.attempts + 1, entry :: r.logs, r.resets + 1, r.success⟩

/-- `download_worker` for the segment with index `idx` (mtdown.c line 296):
`for (int i = 0; i < 5; i++)`, i.e. the loop above with fuel 5 from `i = 0`. -/
def download_worker (idx : Nat) (ok : Nat → Bool) : WorkerRun :=
  worker_go idx ok 5 0

/-- Number of initial failing attempts, capped at the budget of 5: the
attempt index at which the worker first succeeds, or 5 if none succeeds. -/
def failStreak (ok : Nat → Bool) : Nat :=
  ((List.range 5).takeWhile (fun i => !ok i)).length

/-- Count of `retrying` entries for segment `idx` in a log. -/
def countRetrying (idx : Nat) (lg : List LogEntry) : Nat :=
  lg.countP (fun e => e == LogEntry.retrying idx)

/-- Count of `exiting` entries for segment `idx` in a log. -/
def countExiting (idx : Nat) (lg : List LogEntry) : Nat :=
  lg.countP (fun e => e == LogEntry.exiting idx)

/-- An entry whose rendered text contains `"exiting..."`, i.e. one that makes
`strstr(log_buffer, "exiting...")` (mtdown.c line 616) non-NULL. -/
def entryTriggersAbort : LogEntry → Bool
  | LogEntry.exiting _ => true
  | LogEntry.userQuit => true
  | _ => false

/-- The abort check of `wait_for_threads` (mtdown.c line 616). -/
def wait_abort_triggered (lg : List LogEntry) : Bool :=
  lg.any entryTriggersAbort

/-- The abort block of `wait_for_threads` (mtdown.c lines 616-622): when the
log contains an `"exiting..."` entry, the loop sets a 1 ms timeout on and
issues `pthread_cancel` to every one of the `n` worker threads, then
returns; otherwise no thread is cancelled. -/
def cancelled_threads (n : Nat) (lg : List LogEntry) : List Nat :=
  if wait_abort_triggered lg then List.range n else []

/-- Observable effects of `setup_download` (mtdown.c lines 332-456), in
program order. -/
inductive Effect where
  | errorExit (msg : String)
  | promptOverwrite
  | exitSuccess
  | createFile
  | preallocate (size : Int)
  | planSegment (s : Segment)
  | spawnWorker (idx : Nat)
deriving Repr, DecidableEq

/-- The per-thread setup loop body (mtdown.c lines 404-455): for each `i`,
the segment is computed and the worker thread created. -/
def spawn_effects (res : Int) (n : Nat) : List Effect :=
  (plan res n).flatMap (fun s => [Effect.planSegment s, Effect.spawnWorker s.index])

/-- `setup_download` (mtdown.c lines 332-456) as its ordered effect trace,
given the fetched content length `res`, whether the destination file already
exists, the character the user answers to the overwrite prompt, and the
thread count.  `res <= 0` exits with a failure before anything else (lines
343-346); an existing file prompts, and answer `'n'` exits with success
before the file is touched (lines 373-382); otherwise the file is created
(truncated) and preallocated to `res` bytes (lines 385-400) and the workers
are spawned (lines 404-455).  There is no sizing check relating `res` to the
thread count. -/
def setup_download (res : Int) (fileExists : Bool) (answer : Char) (n : Nat) :
    List Effect :=
  if res ≤ 0 then [Effect.errorExit "Could not fetch content length"]
  else if fileExists ∧ answer = 'n' then [Effect.promptOverwrite, Effect.exitSuccess]
  else
    (if fileExists then [Effect.promptOverwrite] else []) ++
      Effect.createFile :: Effect.preallocate res :: spawn_effects res n

/-- Outcome of a whole job as observed at the end of `main`. -/
structure JobOutcome where
  logs : List LogEntry
  completedWorkers : Nat
  report : String
deriving Repr, DecidableEq

/-- The tail of `main` (mtdown.c lines 667-678): every worker increments the
completion counter exactly once whatever its outcome (lines 322-325), and
after `wait_for_threads` returns `main` prints the completion banner
unconditionally — there is no branch on any failure state. -/
def run_job (n : Nat) (oks : Nat → Nat → Bool) : JobOutcome :=
  { logs := ((List.range n).map (fun i => (download_worker i (oks i)).logs)).flatten
    completedWorkers := n
    report := "Download Complete " }

-- Sanity checks on concrete inputs.
example : plan 1000 4 = [⟨0, 0, 249⟩, ⟨1, 250, 499⟩, ⟨2, 500, 749⟩, ⟨3, 750, 1000⟩] := by
  decide

example : plan 2 3 = [⟨0, 0, -1⟩, ⟨1, 0, -1⟩, ⟨2, 0, 2⟩] := by decide

example : find_max_threads 4 (fun _ _ => 200) = 4 := by decide

example : find_max_threads 4 (fun i j => if i = 3 ∧ j = 1 then 500 else 200) = 2 := by
  decide

example : find_max_threads 4 (fun _ _ => 500) = 0 := by decide

example : covered 4 2 4 := by decide

example : download_worker 7 (fun t => t == 4) =
    ⟨5, [.retrying 7, .retrying 7, .retrying 7, .retrying 7], 4, true⟩ := by decide

example : download_worker 7 (fun _ => false) =
    ⟨5, [.retrying 7, .retrying 7, .retrying 7, .retrying 7, .exiting 7], 5, false⟩ := by
  decide

example : cancelled_threads 2 (download_worker 0 (fun _ => false)).logs = [0, 1] := by
  decide

example : setup_download 0 false 'y' 4 = [.errorExit "Could not fetch content length"] := by
  decide

example : setup_download 5 true 'n' 1 = [.promptOverwrite, .exitSuccess] := by decide

example : setup_download 2 false 'y' 3 =
    [.createFile, .preallocate 2,
     .planSegment ⟨0, 0, -1⟩, .spawnWorker 0,
     .planSegment ⟨1, 0, -1⟩, .spawnWorker 1,
     .planSegment ⟨2, 0, 2⟩, .spawnWorker 2] := by decide

/-! ### Helper lemmas -/

/-- Complete characterisation of a worker run in terms of `failStreak`:
the worker makes `failStreak + 1` attempts (capped at 5), logs one entry per
failed attempt (`exiting` on attempt index 4, `retrying` before), resets the
cursor once per failed attempt, and succeeds iff some attempt before the 5th
succeeds. -/
theorem worker_run_eq (idx : Nat) (ok : Nat → Bool) :
    download_worker idx ok =
      ⟨min (failStreak ok + 1) 5,
       (List.range (failStreak ok)).map
         (fun i => if i = 4 then LogEntry.exiting idx else LogEntry.retrying idx),
       failStreak ok, decide (failStreak ok < 5)⟩ := by
  have h5 : List.range 5 = [0, 1, 2, 3, 4] := by decide
  cases h0 : ok 0 <;> cases h1 : ok 1 <;> cases h2 : ok 2 <;> cases h3 : ok 3 <;>
    cases h4 : ok 4 <;>
      simp [download_worker, worker_go, failStreak, h5, h0, h1, h2, h3, h4,
        List.range_succ]

/-- The failing streak never exceeds the attempt budget. -/
theorem failStreak_le_five (ok : Nat → Bool) : failStreak ok ≤ 5 := by
  have h := (List.takeWhile_sublist (l := List.range 5) (fun i => !ok i)).length_le
  simpa [failStreak] using h

/-! ### Claim theorems -/

/-- C6: every segment worker performs at most 5 attempts (stopping at the
first success, so exactly `min (failStreak + 1) 5` attempts are made); each
failed non-final attempt appends a `retrying` entry and each failed attempt
resets the write cursor to the segment start; only a 5th failed attempt
appends an `exiting` entry; and a worker that fails 4 times then succeeds on
the 5th attempt logs exactly 4 `retrying` and 0 `exiting` entries. -/
theorem c6_retry_policy (idx : Nat) (ok : Nat → Bool) :
    (download_worker idx ok).attempts ≤ 5 ∧
    (download_worker idx ok).attempts = min (failStreak ok + 1) 5 ∧
    countRetrying idx (download_worker idx ok).logs = min (failStreak ok) 4 ∧
    (download_worker idx ok).resets = failStreak ok ∧
    countExiting idx (download_worker idx ok).logs =
      (if failStreak ok = 5 then 1 else 0) ∧
    countRetrying idx (download_worker idx (fun t => t == 4)).logs = 4 ∧
    countExiting idx (download_worker idx (fun t => t == 4)).logs = 0 ∧
    (download_worker idx (fun t => t == 4)).success = true := by
  have hsc : failStreak (fun t => t == 4) = 4 := by decide
  have hle : failStreak ok ≤ 5 := failStreak_le_five ok
  rw [worker_run_eq idx ok, worker_run_eq idx (fun t => t == 4), hsc]
  set m := failStreak ok with hm
  clear_value m
  interval_cases m <;>
    simp [countRetrying, countExiting, List.range_succ, List.countP_cons]

/-- C4 counterexample: when worker 0 exhausts its retry budget (all attempts
fail) and logs the terminal `exiting` entry, the wait loop of the controller
cancels every worker thread, so sibling thread 1 is cancelled as a direct
consequence of segment 0's failure — refuting the claim that per-segment
errors never terminate sibling workers. -/
theorem c4_counterexample :
    1 ∈ cancelled_threads 2 (download_worker 0 (fun _ => false)).logs := by decide

/-- C4 amended: per-segment errors on non-final attempts (which log only
`retrying` entries) never cancel any worker thread; but when a worker
exhausts its retry budget and logs the terminal `exiting` entry, the wait
loop cancels all `n` worker threads, siblings included. -/
theorem c4_error_isolation (n idx : Nat) (ok : Nat → Bool) :
    (failStreak ok < 5 → cancelled_threads n (download_worker idx ok).logs = []) ∧
    (failStreak ok = 5 →
      cancelled_threads n (download_worker idx ok).logs = List.range n) := by
  have hle : failStreak ok ≤ 5 := failStreak_le_five ok
  rw [worker_run_eq idx ok]
  set m := failStreak ok with hm
  clear_value m
  interval_cases m <;>
    simp [cancelled_threads, wait_abort_triggered, entryTriggersAbort,
      List.range_succ]

/-- C4 witness: the amended claim at a concrete input — worker 0 fails all
5 attempts, and both sibling threads 0 and 1 are cancelled. -/
theorem c4_witness :
    cancelled_threads 2 (download_worker 0 (fun _ => false)).logs = List.range 2 :=
  (c4_error_isolation 2 0 (fun _ => false)).2 (by decide)

/-- C8: whenever the wait loop returns, `main` prints the completion banner
unconditionally; in particular a job in which every attempt of every worker
fails (so the log holds terminal `exiting` entries) is still reported with
the same "Download Complete " banner. -/
theorem c8_unconditional_complete (n : Nat) (oks : Nat → Nat → Bool) :
    (run_job n oks).report = "Download Complete " ∧
    0 < countExiting 0 (run_job 2 (fun _ _ => false)).logs ∧
    (run_job 2 (fun _ _ => false)).report = "Download Complete " :=
  ⟨rfl, by decide, rfl⟩

/-- C9: whenever the fetched content length is zero or negative, setup emits
only the fatal error exit — no worker is spawned, the destination file is
neither created nor preallocated, and no segment is planned. -/
theorem c9_invalid_content_length (res : Int) (fileExists : Bool) (answer : Char)
    (n : Nat) (h : res ≤ 0) :
    setup_download res fileExists answer n =
      [Effect.errorExit "Could not fetch content length"] ∧
    (∀ i, Effect.spawnWorker i ∉ setup_download res fileExists answer n) ∧
    Effect.createFile ∉ setup_download res fileExists answer n ∧
    (∀ sz, Effect.preallocate sz ∉ setup_download res fileExists answer n) ∧
    (∀ s, Effect.planSegment s ∉ setup_download res fileExists answer n) := by
  have heq : setup_download res fileExists answer n =
      [Effect.errorExit "Could not fetch content length"] := by
    simp [setup_download, h]
  refine ⟨heq, ?_, ?_, ?_, ?_⟩ <;> simp [heq]

/-- C9 witness: the theorem at the concrete input `res = 0`. -/
theorem c9_witness :
    setup_download 0 true 'y' 4 = [Effect.errorExit "Could not fetch content length"] :=
  (c9_invalid_content_length 0 true 'y' 4 (by decide)).1

/-- The spawn loop never emits a success exit, a prompt, or a file-creation
effect: its effects are only `planSegment` and `spawnWorker`. -/
theorem mem_spawn_effects (res : Int) (n : Nat) (e : Effect) :
    e ∈ spawn_effects res n →
      (∃ s, e = Effect.planSegment s) ∨ ∃ i, e = Effect.spawnWorker i := by
  intro h
  simp only [spawn_effects, List.mem_flatMap] at h
  obtain ⟨s, -, hs⟩ := h
  simp only [List.mem_cons, List.mem_singleton] at hs
  rcases hs with h | h | h
  · exact Or.inl ⟨s, h⟩
  · exact Or.inr ⟨s.index, h⟩
  · exact absurd h (by simp)

/-- C10: when the destination file exists and the content length is valid,
setup prompts before anything else; the process exits with success — leaving
the file untouched and spawning no worker — exactly when the answer is the
lowercase character `n`; any other answer (including uppercase `N`)
truncates and re-creates the file and proceeds to spawn the workers. -/
theorem c10_overwrite_prompt (res : Int) (answer : Char) (n : Nat) (h : 0 < res) :
    (setup_download res true answer n).head? = some Effect.promptOverwrite ∧
    (setup_download res true answer n = if answer = 'n'
      then [Effect.promptOverwrite, Effect.exitSuccess]
      else Effect.promptOverwrite :: Effect.createFile :: Effect.preallocate res ::
        spawn_effects res n) ∧
    (Effect.exitSuccess ∈ setup_download res true answer n ↔ answer = 'n') ∧
    setup_download res true 'N' n = Effect.promptOverwrite :: Effect.createFile ::
      Effect.preallocate res :: spawn_effects res n := by
  have hres : ¬ res ≤ 0 := not_le.mpr h
  have hN : setup_download res true 'N' n = Effect.promptOverwrite ::
      Effect.createFile :: Effect.preallocate res :: spawn_effects res n := by
    simp [setup_download, hres]
  by_cases ha : answer = 'n'
  · subst ha
    simp [setup_download, hres, hN]
  · have heq : setup_download res true answer n = Effect.promptOverwrite ::
        Effect.createFile :: Effect.preallocate res :: spawn_effects res n := by
      simp [setup_download, hres, ha]
    refine ⟨by simp [heq], by simp [heq, ha], ?_, hN⟩
    simp only [heq, ha, iff_false]
    intro hmem
    simp only [List.mem_cons] at hmem
    rcases hmem with h' | h' | h' | h' <;>
      first
        | exact Effect.noConfusion h'
        | rcases mem_spawn_effects res n _ h' with ⟨s, hs⟩ | ⟨i, hi⟩ <;> simp_all

/-- C10 witness: the theorem at a concrete input — answering `n` on an
existing file exits with success right after the prompt. -/
theorem c10_witness :
    setup_download 5 true 'n' 2 = [Effect.promptOverwrite, Effect.exitSuccess] := by
  have h := (c10_overwrite_prompt 5 'n' 2 (by decide)).2.1
  simpa using h

/-- C5 (code bug): the code performs no sizing check.  With content length 2
and thread count 3 the plan contains empty segments (`endB < start`,
obtained from `chunk_size = 0` and the C expression `(i+1)*chunk_size - 1`),
yet setup raises no error and spawns all three workers — the claimed sizing
error does not exist in the code. -/
theorem c5_no_sizing_check :
    plan 2 3 = [⟨0, 0, -1⟩, ⟨1, 0, -1⟩, ⟨2, 0, 2⟩] ∧
    (∃ s ∈ plan 2 3, s.endB < s.start) ∧
    Effect.spawnWorker 0 ∈ setup_download 2 false 'y' 3 ∧
    (∀ msg, Effect.errorExit msg ∉ setup_download 2 false 'y' 3) := by
  have heq : setup_download 2 false 'y' 3 =
      [Effect.createFile, Effect.preallocate 2,
       Effect.planSegment ⟨0, 0, -1⟩, Effect.spawnWorker 0,
       Effect.planSegment ⟨1, 0, -1⟩, Effect.spawnWorker 1,
       Effect.planSegment ⟨2, 0, 2⟩, Effect.spawnWorker 2] := by decide
  refine ⟨by decide, by decide, by decide, ?_⟩
  intro msg
  simp [heq]

/-- C3 (code bug): when even the first probe level fails, `find_max_threads`
returns 0 and `main` stores it directly into `settings.max_threads` — there
is no fallback to a single thread, so the planner's division
`res / settings.max_threads` is then performed with divisor 0. -/
theorem c3_probe_zero_no_fallback :
    main_set_max_threads 4 (fun _ _ => 500) = 0 ∧
    ¬ 1 ≤ main_set_max_threads 4 (fun _ _ => 500) := by decide

/-- If every level up to `k` passes and level `k + 1` fails, the probe loop
started anywhere at or below level `k + 1`, with enough fuel to reach it,
returns `k`. -/
theorem probe_from_stops (resp : Nat → Nat → Nat) (k : Nat)
    (hall : ∀ i, i < k → level_ok resp (i + 1) = true)
    (hfail : level_ok resp (k + 1) = false) :
    ∀ fuel i best, i ≤ k + 1 → k + 2 ≤ i + fuel →
      probe_from resp fuel i best = k := by
  intro fuel
  induction fuel with
  | zero => intro i best h1 h2; omega
  | succ fuel ih =>
    intro i best h1 h2
    rcases Nat.lt_or_ge i (k + 1) with hlt | hge
    · have hok : level_ok resp i = true := by
        cases i with
        | zero => simp [level_ok]
        | succ j => exact hall j (by omega)
      simp only [probe_from, hok, if_true]
      exact ih (i + 1) i (by omega) (by omega)
    · have hi : i = k + 1 := by omega
      subst hi
      simp [probe_from, hfail]

/-- C7: if levels `1 .. k` all answer HTTP 200 on every concurrent request
and level `k + 1` has at least one non-200 answer, the probe stops there and
returns `k` (`i - 1` at the first failing level `i`). -/
theorem c7_probe_stops (maxT : Nat) (resp : Nat → Nat → Nat) (k : Nat)
    (hk : k + 1 ≤ maxT)
    (hall : ∀ i, i < k → level_ok resp (i + 1) = true)
    (hfail : level_ok resp (k + 1) = false) :
    find_max_threads maxT resp = k := by
  unfold find_max_threads
  exact probe_from_stops resp k hall hfail maxT 1 1 (by omega) (by omega)

/-- C7 witness: Scenario B — at level 3 two of three requests answer 200 and
one answers 500, levels 1 and 2 pass, so the probe returns 2. -/
theorem c7_witness :
    find_max_threads 4 (fun i j => if i = 3 ∧ j = 1 then 500 else 200) = 2 :=
  c7_probe_stops 4 _ 2 (by decide) (by decide) (by decide)

/-- C2: the planner divides by truncation (`chunk_size = res.tdiv n`),
segment `i` runs from `i * chunk_size` to `(i+1) * chunk_size - 1` with the
final segment's end forced to the content length, and for content length
1000 with 4 threads the plan is exactly
`[0,249], [250,499], [500,749], [750,1000]`. -/
theorem c2_plan_formula (res : Int) (n : Nat) (_h0 : 0 < res) (_h1 : 1 ≤ n) :
    chunk_size res n = res.tdiv (n : Int) ∧
    (plan res n).length = n ∧
    (∀ i : Nat, i < n → (plan res n)[i]? =
      some ⟨i, (i : Int) * chunk_size res n,
        if i = n - 1 then res else ((i : Int) + 1) * chunk_size res n - 1⟩) ∧
    plan 1000 4 = [⟨0, 0, 249⟩, ⟨1, 250, 499⟩, ⟨2, 500, 749⟩, ⟨3, 750, 1000⟩] := by
  refine ⟨rfl, by simp [plan], ?_, by decide⟩
  intro i hi
  simp [plan, hi]

/-- C2 witness: the theorem at the concrete input of Scenario A. -/
theorem c2_witness :
    plan 1000 4 = [⟨0, 0, 249⟩, ⟨1, 250, 499⟩, ⟨2, 500, 749⟩, ⟨3, 750, 1000⟩] :=
  (c2_plan_formula 1000 4 (by decide) (by decide)).2.2.2

/-- Membership in the plan, unfolded. -/
theorem mem_plan_iff {res : Int} {n : Nat} {s : Segment} :
    s ∈ plan res n ↔ ∃ i : Nat, i < n ∧
      s = ⟨i, (i : Int) * chunk_size res n,
        if i = n - 1 then res else ((i : Int) + 1) * chunk_size res n - 1⟩ := by
  simp only [plan, List.mem_map, List.mem_range]
  constructor
  · rintro ⟨i, hi, rfl⟩; exact ⟨i, hi, rfl⟩
  · rintro ⟨i, hi, rfl⟩; exact ⟨i, hi, rfl⟩

/-- The last segment of the plan. -/
theorem last_seg_mem {res : Int} {n : Nat} (hn : 1 ≤ n) :
    (⟨n - 1, ((n - 1 : Nat) : Int) * chunk_size res n, res⟩ : Segment) ∈ plan res n :=
  mem_plan_iff.mpr ⟨n - 1, by omega, by simp⟩

/-- Any non-last segment of the plan. -/
theorem mid_seg_mem {res : Int} {n i : Nat} (hi : i < n - 1) :
    (⟨i, (i : Int) * chunk_size res n,
      ((i : Int) + 1) * chunk_size res n - 1⟩ : Segment) ∈ plan res n :=
  mem_plan_iff.mpr ⟨i, by omega, by rw [if_neg (by omega)]⟩

/-- When the thread count is positive and at most the content length, the
truncating chunk size is at least 1. -/
theorem chunk_size_pos {res : Int} {n : Nat} (hn : 0 < n) (hnres : (n : Int) ≤ res) :
    1 ≤ chunk_size res n := by
  have hn' : (0 : Int) < (n : Int) := by exact_mod_cast hn
  have hres : (0 : Int) ≤ res := le_trans (le_of_lt hn') hnres
  rw [chunk_size, Int.tdiv_eq_ediv hres (le_of_lt hn'), Int.le_ediv_iff_mul_le hn']
  simpa using hnres

/-- `n * (res / n) ≤ res` for the truncating chunk size. -/
theorem mul_chunk_size_le {res : Int} {n : Nat} (hn : 0 < n) (hres : 0 ≤ res) :
    (n : Int) * chunk_size res n ≤ res := by
  have hn' : (0 : Int) < (n : Int) := by exact_mod_cast hn
  rw [chunk_size, Int.tdiv_eq_ediv hres (le_of_lt hn')]
  have h1 := Int.ediv_add_emod res (n : Int)
  have h2 := Int.emod_nonneg res (ne_of_gt hn')
  linarith

/-- Coverage of the produced plan: a byte is covered by some segment exactly
when it lies in the closed interval `[0, res]` — one byte more than the
half-open `[0, res)`, because the last segment's end is forced to `res`. -/
theorem covered_iff {res : Int} {n : Nat} (hres : 0 < res) (hn : 1 ≤ n)
    (hnres : (n : Int) ≤ res) (x : Int) :
    covered res n x ↔ 0 ≤ x ∧ x ≤ res := by
  have hc1 : 1 ≤ chunk_size res n := chunk_size_pos (by omega) hnres
  have hc0 : (0 : Int) ≤ chunk_size res n := by linarith
  have hcpos : (0 : Int) < chunk_size res n := by linarith
  have hmul : (n : Int) * chunk_size res n ≤ res :=
    mul_chunk_size_le (by omega) (le_of_lt hres)
  set c := chunk_size res n with hcdef
  constructor
  · rintro ⟨s, hs, hcov⟩
    simp only [coversPt] at hcov
    obtain ⟨hx1, hx2⟩ := hcov
    rcases mem_plan_iff.mp hs with ⟨i, hi, rfl⟩
    dsimp at hx1 hx2
    have hi0 : (0 : Int) ≤ (i : Int) := Int.natCast_nonneg i
    have hstart0 : (0 : Int) ≤ (i : Int) * c := mul_nonneg hi0 hc0
    refine ⟨le_trans hstart0 hx1, ?_⟩
    by_cases hilast : i = n - 1
    · rwa [if_pos hilast] at hx2
    · rw [if_neg hilast] at hx2
      have hin : ((i : Int) + 1) ≤ (n : Int) := by exact_mod_cast hi
      have : ((i : Int) + 1) * c ≤ (n : Int) * c :=
        mul_le_mul_of_nonneg_right hin hc0
      linarith
  · rintro ⟨hx0, hxr⟩
    by_cases hbig : ((n : Int) - 1) * c ≤ x
    · refine ⟨_, last_seg_mem hn, ?_⟩
      simp only [coversPt]
      have hcast : ((n - 1 : Nat) : Int) = (n : Int) - 1 := by omega
      exact ⟨by rw [hcast]; exact hbig, hxr⟩
    · push_neg at hbig
      have hq0 : 0 ≤ x / c := Int.ediv_nonneg hx0 hc0
      have hqlt : x / c < (n : Int) - 1 := (Int.ediv_lt_iff_lt_mul hcpos).mpr hbig
      have hicast : ((x / c).toNat : Int) = x / c := Int.toNat_of_nonneg hq0
      have hin : (x / c).toNat < n - 1 := by omega
      refine ⟨_, mid_seg_mem (i := (x / c).toNat) hin, ?_⟩
      simp only [coversPt]
      have hde := Int.ediv_add_emod x c
      have hm0 := Int.emod_nonneg x (ne_of_gt hcpos)
      have hmlt := Int.emod_lt_of_pos x hcpos
      constructor
      · dsimp; rw [hicast]; linarith
      · dsimp; rw [hicast]; linarith

/-- Segments of the plan with smaller index end strictly before segments
with larger index start, whenever the chunk size is positive. -/
theorem seg_disjoint_lt {res : Int} {n i j : Nat} (hc1 : 1 ≤ chunk_size res n)
    (hij : i < j) (hj : j < n) :
    (if i = n - 1 then res else ((i : Int) + 1) * chunk_size res n - 1) <
      (j : Int) * chunk_size res n := by
  have hc0 : (0 : Int) ≤ chunk_size res n := by linarith
  rw [if_neg (by omega)]
  have hin : ((i : Int) + 1) ≤ (j : Int) := by exact_mod_cast hij
  have : ((i : Int) + 1) * chunk_size res n ≤ (j : Int) * chunk_size res n :=
    mul_le_mul_of_nonneg_right hin hc0
  linarith

/-- C1 counterexample: with `contentLength = 4` and `threadCount = 2` (both
inside the claim's ranges), byte 4 is covered by the plan — the last
segment's end is forced to the content length itself — so the union of the
planned segments is not `[0, contentLength)` as claimed. -/
theorem c1_counterexample :
    ¬ (∀ x : Int, covered 4 2 x ↔ 0 ≤ x ∧ x < 4) := by
  intro h
  have h4 : covered 4 2 4 := by decide
  have := (h 4).mp h4
  omega

/-- C1 amended: for every `contentLength > 0` and `threadCount` in `1..32`
with `threadCount ≤ contentLength`, the union of the planned segments equals
the closed interval `[0, contentLength]` — i.e. `[0, contentLength)` plus
the single documented extra byte at `contentLength` — with no gap and no
overlap, and every pair of distinct segments `(a, b)` satisfies
`a.end < b.start` or `b.end < a.start`. -/
theorem c1_coverage_disjoint (res : Int) (n : Nat) (hres : 0 < res)
    (hn : 1 ≤ n) (_hn32 : n ≤ 32) (hnres : (n : Int) ≤ res) :
    (∀ x : Int, covered res n x ↔ 0 ≤ x ∧ x ≤ res) ∧
    (∀ a ∈ plan res n, ∀ b ∈ plan res n, a ≠ b →
      a.endB < b.start ∨ b.endB < a.start) := by
  have hc1 : 1 ≤ chunk_size res n := chunk_size_pos (by omega) hnres
  refine ⟨covered_iff hres hn hnres, ?_⟩
  intro a ha b hb hne
  rcases mem_plan_iff.mp ha with ⟨i, hi, rfl⟩
  rcases mem_plan_iff.mp hb with ⟨j, hj, rfl⟩
  rcases Nat.lt_trichotomy i j with hij | hij | hij
  · exact Or.inl (seg_disjoint_lt hc1 hij hj)
  · subst hij; exact absurd rfl hne
  · exact Or.inr (seg_disjoint_lt hc1 hij hi)

/-- C1 witness: the amended coverage at the concrete input of Scenario A —
byte 1000 (the content length itself) is covered by the plan for
`(1000, 4)`. -/
theorem c1_witness : covered 1000 4 1000 :=
  ((c1_coverage_disjoint 1000 4 (by decide) (by decide) (by decide)
    (by decide)).1 1000).mpr (by decide)
